import Mathlib

/-!
# go-audit: verification of the rule engine against its specification

Shallow embedding of the go-audit static-analysis tool.  Go source files are
modelled by the `Ast` inductive (the fragment of `go/ast` the six detection
rules inspect), rules are Lean functions from a `GoFile` to a list of `Issue`s,
translated clause by clause from the Go sources, and the concurrent dispatcher
`AnalyzeFiles` is modelled sequentially (the multiset of collected issues is
schedule-independent; the shared slice is only appended to under a mutex).

Machine integers do not occur on any verified path; Go `int` is modelled by
`Nat` (line numbers, positions, lengths are non-negative throughout).
-/

namespace GoAudit

/-! ## Small string/character helpers

Go's `strings` package operations and the handful of regular expressions the
rules compile are embedded as explicit scanning functions over `List Char`.
Characters are compared by code point; all vocabularies in the source are
ASCII, where Go's byte-wise string order and comparisons agree with the
code-point order used here.
-/

/-- The single-quote character (written via its code to keep sources plain). -/
def squote : Char := Char.ofNat 39

/-- The double-quote character. -/
def dquote : Char := Char.ofNat 34

/-- The backtick character (Go raw-string delimiter). -/
def btick : Char := Char.ofNat 96

/-- ASCII lower-casing of one character (`strings.ToLower` restricted to the
ASCII range, which covers every vocabulary word in the source). -/
def lowerChar (c : Char) : Char :=
  if 'A' ≤ c ∧ c ≤ 'Z' then Char.ofNat (c.toNat + 32) else c

/-- `c` is an ASCII letter. -/
def isAsciiLetter (c : Char) : Bool :=
  ('a' ≤ c && c ≤ 'z') || ('A' ≤ c && c ≤ 'Z')

/-- `c` is an ASCII digit. -/
def isAsciiDigit (c : Char) : Bool :=
  '0' ≤ c && c ≤ '9'

/-- RE2's `\s` character class: `[\t\n\f\r ]`. -/
def isRegexSpace (c : Char) : Bool :=
  c == ' ' || c == '\t' || c == '\n' || c == '\x0c' || c == '\r'

/-- Substring test (`strings.Contains`): does `pat` occur contiguously in `s`? -/
def listHasSub [BEq α] (pat s : List α) : Bool :=
  match s with
  | [] => pat.isEmpty
  | _ :: rest => pat.isPrefixOf s || listHasSub pat rest

/-- `strings.Contains` on strings. -/
def strContainsStr (s pat : String) : Bool :=
  listHasSub pat.data s.data

/-- Case-insensitive (ASCII) literal match at the head of `s`; returns the
rest of the input on success.  Used to embed the `(?i)` regexes. -/
def dropCI : List Char → List Char → Option (List Char)
  | [], s => some s
  | _ :: _, [] => none
  | p :: ps, c :: cs => if lowerChar c == lowerChar p then dropCI ps cs else none

/-- `strings.Trim(s, cutset)` for a cutset given as a character predicate:
remove matching characters from both ends. -/
def trimBy (f : Char → Bool) (s : List Char) : List Char :=
  ((s.dropWhile f).reverse.dropWhile f).reverse

/-! ## The `go/ast` fragment

Only the constructs the six rules pattern-match on are represented.  Every
node carries its `token.Pos` (`pos : Nat`); an identifier carries the
declaration position of its resolved `ast.Object` (`obj`), or `none` when the
identifier is unresolved — as `go/parser` leaves predeclared names such as
`nil` and the blank identifier `_`.  A `selectorExpr` stores the name of its
`Sel` identifier, which is all the rules ever read from it.  `basicLit.value`
is the literal's source text, quotes included, exactly as `ast.BasicLit.Value`.
-/

/-- The `token.Token` kinds of literals the rules test (`lit.Kind`). -/
inductive LitKind where
  | string
  | int
  | other
deriving DecidableEq

/-- Binary operators the rules test (`token.ADD`, `token.NEQ`, `token.EQL`);
every other operator behaves uniformly and is collapsed to `other`. -/
inductive BinOp where
  | add
  | neq
  | eql
  | other
deriving DecidableEq

/-- Assignment tokens (`token.DEFINE`, `token.ASSIGN`, anything else). -/
inductive AsgTok where
  | define
  | assign
  | other
deriving DecidableEq

/-- Syntax-tree nodes (the fragment of `go/ast` inspected by the rules). -/
inductive Ast where
  | ident (pos : Nat) (name : String) (obj : Option Nat)
  | basicLit (pos : Nat) (kind : LitKind) (value : String)
  | binaryExpr (pos : Nat) (op : BinOp) (x y : Ast)
  | callExpr (pos : Nat) (fn : Ast) (args : List Ast)
  | selectorExpr (pos : Nat) (x : Ast) (sel : String)
  | compositeLit (pos : Nat) (ty : Option Ast) (elts : List Ast)
  | keyValueExpr (pos : Nat) (key : Ast) (val : Ast)
  | valueSpec (pos : Nat) (names : List Ast) (vals : List Ast)
  | assignStmt (pos : Nat) (lhs : List Ast) (tok : AsgTok) (rhs : List Ast)
  | exprStmt (pos : Nat) (x : Ast)
  | returnStmt (pos : Nat) (results : List Ast)
  | ifStmt (pos : Nat) (cond : Ast) (body : List Ast)
  | funcDecl (pos : Nat) (name : String) (body : List Ast)

mutual

/-- Structural equality of nodes (the Go source compares node pointers;
example files give every node a distinct position, so structural equality
coincides with identity there). -/
def Ast.beq : Ast → Ast → Bool
  | .ident p n o, .ident p' n' o' => p == p' && n == n' && o == o'
  | .basicLit p k v, .basicLit p' k' v' => p == p' && k == k' && v == v'
  | .binaryExpr p op x y, .binaryExpr p' op' x' y' =>
      p == p' && op == op' && Ast.beq x x' && Ast.beq y y'
  | .callExpr p fn args, .callExpr p' fn' args' =>
      p == p' && Ast.beq fn fn' && beqList args args'
  | .selectorExpr p x s, .selectorExpr p' x' s' => p == p' && Ast.beq x x' && s == s'
  | .compositeLit p ty elts, .compositeLit p' ty' elts' =>
      p == p' && beqOpt ty ty' && beqList elts elts'
  | .keyValueExpr p k v, .keyValueExpr p' k' v' =>
      p == p' && Ast.beq k k' && Ast.beq v v'
  | .valueSpec p ns vs, .valueSpec p' ns' vs' =>
      p == p' && beqList ns ns' && beqList vs vs'
  | .assignStmt p l t r, .assignStmt p' l' t' r' =>
      p == p' && beqList l l' && t == t' && beqList r r'
  | .exprStmt p x, .exprStmt p' x' => p == p' && Ast.beq x x'
  | .returnStmt p rs, .returnStmt p' rs' => p == p' && beqList rs rs'
  | .ifStmt p c b, .ifStmt p' c' b' => p == p' && Ast.beq c c' && beqList b b'
  | .funcDecl p n b, .funcDecl p' n' b' => p == p' && n == n' && beqList b b'
  | _, _ => false

/-- Structural equality on node lists. -/
def beqList : List Ast → List Ast → Bool
  | [], [] => true
  | a :: as, b :: bs => Ast.beq a b && beqList as bs
  | _, _ => false

/-- Structural equality on optional nodes. -/
def beqOpt : Option Ast → Option Ast → Bool
  | none, none => true
  | some a, some b => Ast.beq a b
  | _, _ => false

end

instance : BEq Ast := ⟨Ast.beq⟩

/-- The `Pos()` of a node. -/
def Ast.pos : Ast → Nat
  | .ident p _ _ => p
  | .basicLit p _ _ => p
  | .binaryExpr p _ _ _ => p
  | .callExpr p _ _ => p
  | .selectorExpr p _ _ => p
  | .compositeLit p _ _ => p
  | .keyValueExpr p _ _ => p
  | .valueSpec p _ _ => p
  | .assignStmt p _ _ _ => p
  | .exprStmt p _ => p
  | .returnStmt p _ => p
  | .ifStmt p _ _ => p
  | .funcDecl p _ _ => p

/-- Immediate child nodes, in source order (`childNodes` in the Go source). -/
def Ast.children : Ast → List Ast
  | .ident _ _ _ => []
  | .basicLit _ _ _ => []
  | .binaryExpr _ _ x y => [x, y]
  | .callExpr _ fn args => fn :: args
  | .selectorExpr _ x _ => [x]
  | .compositeLit _ ty elts => ty.toList ++ elts
  | .keyValueExpr _ k v => [k, v]
  | .valueSpec _ ns vs => ns ++ vs
  | .assignStmt _ lhs _ rhs => lhs ++ rhs
  | .exprStmt _ x => [x]
  | .returnStmt _ rs => rs
  | .ifStmt _ c b => c :: b
  | .funcDecl _ _ b => b

mutual

/-- Depth-first preorder enumeration of a subtree: the visiting order of
`ast.Inspect` with a callback that always returns `true`, which is how every
rule traverses the file. -/
def Ast.preorder : Ast → List Ast
  | .ident p n o => [.ident p n o]
  | .basicLit p k v => [.basicLit p k v]
  | .binaryExpr p op x y => .binaryExpr p op x y :: (x.preorder ++ y.preorder)
  | .callExpr p fn args => .callExpr p fn args :: (fn.preorder ++ preorderList args)
  | .selectorExpr p x s => .selectorExpr p x s :: x.preorder
  | .compositeLit p ty elts =>
      .compositeLit p ty elts ::
        ((match ty with | some t => t.preorder | none => []) ++ preorderList elts)
  | .keyValueExpr p k v => .keyValueExpr p k v :: (k.preorder ++ v.preorder)
  | .valueSpec p ns vs => .valueSpec p ns vs :: (preorderList ns ++ preorderList vs)
  | .assignStmt p l t r => .assignStmt p l t r :: (preorderList l ++ preorderList r)
  | .exprStmt p x => .exprStmt p x :: x.preorder
  | .returnStmt p rs => .returnStmt p rs :: preorderList rs
  | .ifStmt p c b => .ifStmt p c b :: (c.preorder ++ preorderList b)
  | .funcDecl p n b => .funcDecl p n b :: preorderList b

/-- Preorder enumeration of a forest. -/
def preorderList : List Ast → List Ast
  | [] => []
  | a :: rest => a.preorder ++ preorderList rest

end

/-- One parsed source file (`rules.Context`): its path, declared package
name, import paths (`ctx.File.Imports`, unquoted), and top-level
declarations. -/
structure GoFile where
  filePath : String
  packageName : String
  imports : List String
  decls : List Ast

/-- All nodes of a file in `ast.Inspect` visiting order. -/
def GoFile.nodes (f : GoFile) : List Ast :=
  preorderList f.decls

/-- `getParent` from the SQL-injection rule: the first node in depth-first
order whose immediate children contain `node`.  The Go version compares node
pointers; positions are kept distinct inside each example file so structural
equality coincides with node identity. -/
def getParent (f : GoFile) (node : Ast) : Option Ast :=
  f.nodes.find? (fun n => n.children.contains node)

/-! ## `pkg/report`: severities, issues, sorting -/

/-- `report.Severity`: the closed set of the five declared constants
(`CRITICAL`, `HIGH`, `MEDIUM`, `LOW`, `INFO`). -/
inductive Severity where
  | critical
  | high
  | medium
  | low
  | info
deriving DecidableEq

/-- `report.Issue`. -/
structure Issue where
  ruleID : String
  severity : Severity
  filePath : String
  line : Nat
  column : Nat
  message : String
  description : String
deriving DecidableEq

/-- The `severityOrder` map of `sortIssues`. -/
def severityOrder : Severity → Nat
  | .critical => 0
  | .high => 1
  | .medium => 2
  | .low => 3
  | .info => 4

/-- The comparator closure passed to `sort.Slice` in `sortIssues`: severity
rank first, then file path, then line. -/
def issueLess (a b : Issue) : Bool :=
  if a.severity != b.severity then
    decide (severityOrder a.severity < severityOrder b.severity)
  else if a.filePath != b.filePath then
    decide (a.filePath < b.filePath)
  else
    decide (a.line < b.line)

/-- `report.sortIssues`.  `sort.Slice` is an unstable comparison sort; it is
modelled by insertion sort over the non-strict order induced by the
comparator (`¬ less b a`), which yields exactly the postcondition `sort.Slice`
guarantees: a permutation of the input, pairwise non-descending under the
comparator. -/
def sortIssues (l : List Issue) : List Issue :=
  List.insertionSort (fun a b => issueLess b a = false) l

/-- The claim's ordering: non-decreasing in the lexicographic key
(severity rank, file path, line). -/
def issueKeyLE (a b : Issue) : Prop :=
  severityOrder a.severity < severityOrder b.severity ∨
    (severityOrder a.severity = severityOrder b.severity ∧
      (a.filePath < b.filePath ∨ (a.filePath = b.filePath ∧ a.line ≤ b.line)))

/-! ## `pkg/config` -/

/-- `config.Config` (the fields the analysis core reads). -/
structure Config where
  enabledRules : List String
  disabledRules : List String
deriving DecidableEq

/-- `Config.IsRuleEnabled`: an explicitly disabled rule is off regardless of
`EnabledRules`; with no explicit enables every rule is on; otherwise only the
explicitly enabled ones are. -/
def Config.IsRuleEnabled (c : Config) (ruleID : String) : Bool :=
  if c.disabledRules.contains ruleID then false
  else if c.enabledRules.isEmpty then true
  else c.enabledRules.contains ruleID

/-- `BaseRule.NewIssue`: an issue stamped with the rule's identity and the
node position.  `token.FileSet.Position` is an external collaborator; the
line is modelled as the position itself and the column is abstracted to 0
(no claim depends on the offset-to-line mapping). -/
def newIssue (id : String) (sev : Severity) (desc : String)
    (f : GoFile) (pos : Nat) (msg : String) : Issue :=
  { ruleID := id, severity := sev, filePath := f.filePath,
    line := pos, column := 0, message := msg, description := desc }

/-! ## SEC001: the SQL-injection rule -/

/-- `isVulnerableSQLMethod`: the vocabulary of query/exec-style methods. -/
def isVulnerableSQLMethod (m : String) : Bool :=
  ["Query", "QueryRow", "Exec", "Prepare",
   "QueryContext", "QueryRowContext", "ExecContext", "PrepareContext"].contains m

/-- The SQL keywords of `sqlQueryRegex`
(pattern `(?i)(SELECT|INSERT|UPDATE|DELETE|DROP|CREATE|ALTER|TRUNCATE)\s+`). -/
def sqlKeywords : List String :=
  ["SELECT", "INSERT", "UPDATE", "DELETE", "DROP", "CREATE", "ALTER", "TRUNCATE"]

/-- A keyword of `sqlQueryRegex` matches (case-insensitively) at the head of
`s`, followed by at least one whitespace character. -/
def sqlKeywordAt (s : List Char) : Bool :=
  sqlKeywords.any (fun kw =>
    match dropCI kw.data s with
    | some (c :: _) => isRegexSpace c
    | _ => false)

/-- `sqlQueryRegex.MatchString`: the keyword-plus-whitespace pattern occurs
somewhere in the text. -/
def sqlQueryRegexMatch : List Char → Bool
  | [] => false
  | c :: rest => sqlKeywordAt (c :: rest) || sqlQueryRegexMatch rest

/-- The safe format verbs of the rule's whitelist regex `%[dtv]`. -/
def safeVerbs : List Char := ['d', 't', 'v']

/-- `strings.Contains(s, "%")`. -/
def containsPercent (s : List Char) : Bool :=
  s.any (· == '%')

/-- Regex `%[dtv]` matches: some `%` is immediately followed by a safe verb. -/
def hasSafePlaceholder : List Char → Bool
  | [] => false
  | [_] => false
  | a :: b :: rest => (a == '%' && safeVerbs.contains b) || hasSafePlaceholder (b :: rest)

/-- Regex `%[^dtv]` matches: some `%` is immediately followed by a character
that is not a safe verb. -/
def hasUnsafePlaceholder : List Char → Bool
  | [] => false
  | [_] => false
  | a :: b :: rest => (a == '%' && !safeVerbs.contains b) || hasUnsafePlaceholder (b :: rest)

/-- `isRiskySQLQuery`: whether the first argument of a query-style call is
judged risky.  String literals are safe; `+`-concatenations and bare
identifiers are risky; a call is safe only when it is a `Sprintf` selector
call whose literal template passes the placeholder whitelist. -/
def isRiskySQLQuery : Ast → Bool
  | .basicLit _ _ _ => false
  | .binaryExpr _ op _ _ => op == .add
  | .ident _ _ _ => true
  | .callExpr _ fn args =>
      match fn, args with
      | .selectorExpr _ _ sel, .basicLit _ k v :: _ =>
          if sel == "Sprintf" && k == .string then
            if !containsPercent v.data then false
            else if hasSafePlaceholder v.data && !hasUnsafePlaceholder v.data then false
            else true
          else true
      | _, _ => true
  | _ => false

/-- The call-branch condition of `SQLInjectionRule.Check`: a selector call
whose method name is in the vulnerable vocabulary, with at least one
argument, whose first argument is risky. -/
def sqlCallFlagged : Ast → Bool
  | .callExpr _ (.selectorExpr _ _ m) (a :: _) =>
      isVulnerableSQLMethod m && isRiskySQLQuery a
  | _ => false

/-- Issues the `ast.Inspect` callback of `SQLInjectionRule.Check` emits at one
node: the call branch, then the string-literal/concatenation branch. -/
def sqlNodeIssues (f : GoFile) (n : Ast) : List Issue :=
  (if sqlCallFlagged n then
    [newIssue "SEC001" .critical "Потенциальная SQL-инъекция обнаружена" f n.pos
      "Возможная SQL-инъекция: используйте подготовленные запросы с параметрами"]
  else []) ++
  (match n with
   | .basicLit p .string v =>
       if sqlQueryRegexMatch v.data then
         match getParent f (.basicLit p .string v) with
         | some (.binaryExpr _ .add _ _) =>
             [newIssue "SEC001" .critical "Потенциальная SQL-инъекция обнаружена" f p
               "Использование конкатенации строк в SQL-запросе может привести к SQL-инъекции"]
         | _ => []
       else []
   | _ => [])

/-- `SQLInjectionRule.Check`. -/
def SQLInjectionRule.Check (f : GoFile) : List Issue :=
  f.nodes.flatMap (sqlNodeIssues f)

/-- Modelled from the spec's wording of claim C3: a first argument is risky
when it is an identifier, a `+` concatenation, or a call expression that is
not a `Sprintf` call whose string-literal template contains only the safe
placeholders `%d`/`%t`/`%v` (or no placeholders at all) — "contains only safe
placeholders or none" is read as: no placeholder (`%` followed by a
character) other than `%d`, `%t`, `%v` occurs in the template. -/
def riskySpecSQLArg : Ast → Bool
  | .ident _ _ _ => true
  | .binaryExpr _ op _ _ => op == .add
  | .callExpr _ fn args =>
      !(match fn, args with
        | .selectorExpr _ _ sel, .basicLit _ k v :: _ =>
            sel == "Sprintf" && k == .string && !hasUnsafePlaceholder v.data
        | _, _ => false)
  | _ => false

/-- The scanned template text does not end in a bare `%`.  This holds for the
`Value` of every syntactically valid Go string literal, whose last character
is a closing quote. -/
def noTrailingPercent : List Char → Bool
  | [] => true
  | [c] => c != '%'
  | _ :: rest => noTrailingPercent rest

/-- Well-formedness of a candidate first argument: if it is a `Sprintf`
selector call with a string-literal template, the template text does not end
in a bare `%`. -/
def sprintfTemplateOk : Ast → Bool
  | .callExpr _ (.selectorExpr _ _ sel) (.basicLit _ k v :: _) =>
      if sel == "Sprintf" && k == .string then noTrailingPercent v.data else true
  | _ => true

/-! ## SEC002: the hardcoded-secrets rule

The four compiled regexes are embedded as explicit scanners.  Each has the
shape `(?i)(kw1|kw2|…)[\s]*=[\s]*['"]CLASS{min,}['"]`; since neither quote
character belongs to any of the value classes, a match exists iff some
case-insensitive keyword occurrence is followed by optional whitespace, `=`,
optional whitespace, a quote, a maximal run of at least `min` class
characters, and another quote.
-/

/-- `c` is one of the quote characters of the cutset `"'`. -/
def isQuoteChar (c : Char) : Bool :=
  c == dquote || c == squote

/-- Value class `[\w\d\+\/=]` of the api-key regex. -/
def isWordClassChar (c : Char) : Bool :=
  isAsciiLetter c || isAsciiDigit c || c == '_' || c == '+' || c == '/' || c == '='

/-- Value class `[^'"]` of the password/token/credential regexes. -/
def isNotQuoteChar (c : Char) : Bool :=
  !isQuoteChar c

/-- `['"]CLASS{min,}['"]`: an opening quote, at least `min` class characters,
then a closing quote. -/
def matchQuotedRun (cls : Char → Bool) (minLen : Nat) : List Char → Bool
  | [] => false
  | q :: rest =>
      if isQuoteChar q then
        let run := rest.takeWhile cls
        decide (minLen ≤ run.length) &&
          (match rest.drop run.length with
           | c :: _ => isQuoteChar c
           | [] => false)
      else false

/-- `[\s]*=[\s]*` followed by the quoted value run. -/
def eqThenValue (cls : Char → Bool) (minLen : Nat) (r : List Char) : Bool :=
  match r.dropWhile isRegexSpace with
  | '=' :: r2 => matchQuotedRun cls minLen (r2.dropWhile isRegexSpace)
  | _ => false

/-- Possible rests after one of the literal keyword alternatives matches
case-insensitively at the head of the input. -/
def keywordRests (alts : List String) (s : List Char) : List (List Char) :=
  alts.filterMap (fun kw => dropCI kw.data s)

/-- Possible rests after `auth.?token` matches at the head of the input
(`.` is any character but newline in RE2). -/
def authDotTokenRests (s : List Char) : List (List Char) :=
  match dropCI "auth".data s with
  | none => []
  | some r =>
      (match dropCI "token".data r with
       | some r2 => [r2]
       | none => []) ++
      (match r with
       | c :: r1 =>
           if c != '\n' then
             match dropCI "token".data r1 with
             | some r2 => [r2]
             | none => []
           else []
       | [] => [])

/-- Search every position of the text for keyword-`=`-quoted-value shape. -/
def searchKV (rests : List Char → List (List Char)) (cls : Char → Bool)
    (minLen : Nat) : List Char → Bool
  | [] => false
  | c :: rest =>
      (rests (c :: rest)).any (eqThenValue cls minLen) || searchKV rests cls minLen rest

/-- `apiKeyRegex`:
`(?i)(api_?key|app_?key|token|secret|jwt|authorization)[\s]*=[\s]*['"][\w\d\+\/=]{8,}['"]`. -/
def apiKeyRegexMatch (s : String) : Bool :=
  searchKV
    (keywordRests
      ["api_key", "apikey", "app_key", "appkey", "token", "secret", "jwt", "authorization"])
    isWordClassChar 8 s.data

/-- `passwordRegex`: `(?i)(password|passwd|pass|pwd)[\s]*=[\s]*['"][^'"]{3,}['"]`. -/
def passwordRegexMatch (s : String) : Bool :=
  searchKV (keywordRests ["password", "passwd", "pass", "pwd"]) isNotQuoteChar 3 s.data

/-- `tokenRegex`: `(?i)(auth.?token|oauth|bearer|jwt)[\s]*=[\s]*['"][^'"]{8,}['"]`. -/
def tokenRegexMatch (s : String) : Bool :=
  searchKV
    (fun t => authDotTokenRests t ++ keywordRests ["oauth", "bearer", "jwt"] t)
    isNotQuoteChar 8 s.data

/-- `credentialRegex`: `(?i)(credential|auth)[\s]*=[\s]*['"][^'"]{8,}['"]`. -/
def credentialRegexMatch (s : String) : Bool :=
  searchKV (keywordRests ["credential", "auth"]) isNotQuoteChar 8 s.data

/-- The `sensitiveNames` vocabulary. -/
def sensitiveNames : List String :=
  ["password", "passwd", "pass", "pwd", "apikey", "api_key", "secret", "secretkey",
   "secret_key", "token", "accesstoken", "access_token", "auth", "authentication",
   "credential", "jwt", "private", "privatekey", "private_key"]

/-- ASCII `strings.ToLower` (every vocabulary word is ASCII). -/
def strToLowerAscii (s : String) : String :=
  ⟨s.data.map lowerChar⟩

/-- `isSensitiveName`: the lower-cased name is a vocabulary word, or contains
one as a substring. -/
def isSensitiveName (name : String) : Bool :=
  let lowerName := strToLowerAscii name
  sensitiveNames.contains lowerName ||
    sensitiveNames.any (fun sens => listHasSub sens.data lowerName.data)

/-- `containsAlphaAndNumeric`: the single pass of the Go loop, returning as
soon as both a letter and a digit have been seen. -/
def containsAlphaAndNumeric (s : List Char) : Bool :=
  go s false false
where
  /-- The loop state: characters left, letter seen, digit seen. -/
  go : List Char → Bool → Bool → Bool
    | [], _, _ => false
    | c :: rest, hasAlpha, hasNumeric =>
        let hasAlpha := hasAlpha || isAsciiLetter c
        let hasNumeric := hasNumeric || isAsciiDigit c
        if hasAlpha && hasNumeric then true else go rest hasAlpha hasNumeric

/-- `isLikelySecret`: quote-trimmed value of length ≥ 3 that is not an obvious
test value, not a configuration template, not a URL or absolute path, and is
at least 8 characters mixing letters and digits.  (Lengths count characters;
all vocabulary comparisons are ASCII, where Go's byte lengths agree.) -/
def isLikelySecret (value : String) : Bool :=
  let v := trimBy isQuoteChar value.data
  if v.length < 3 then false
  else if v == "password".data || v == "123456".data || v == "test".data
      || v == "example".data then false
  else if listHasSub "$\x7b".data v || listHasSub "$(".data v
      || ("\x7b\x7b".data).isPrefixOf v then false
  else if ("http://".data).isPrefixOf v || ("https://".data).isPrefixOf v
      || ("/".data).isPrefixOf v then false
  else if decide (8 ≤ v.length) && containsAlphaAndNumeric v then true
  else false

/-- `containsSecretPattern`: any of the four secret-shape regexes matches. -/
def containsSecretPattern (value : String) : Bool :=
  apiKeyRegexMatch value || passwordRegexMatch value ||
    tokenRegexMatch value || credentialRegexMatch value

/-- Issues the `ast.Inspect` callback of `HardcodedSecretsRule.Check` emits at
one node. -/
def secretsNodeIssues (f : GoFile) (n : Ast) : List Issue :=
  match n with
  | .valueSpec p names vals =>
      (names.zip vals).flatMap (fun pr =>
        match pr with
        | (.ident _ nm _, .basicLit _ .string v) =>
            if isSensitiveName nm && isLikelySecret v then
              [newIssue "SEC002" .high "Обнаружен жестко закодированный секрет или пароль" f p
                ("Потенциальный жестко закодированный секрет в переменной " ++ nm)]
            else []
        | _ => [])
  | .assignStmt p lhs _ rhs =>
      (lhs.zip rhs).flatMap (fun pr =>
        match pr with
        | (.ident _ nm _, .basicLit _ .string v) =>
            if isSensitiveName nm && isLikelySecret v then
              [newIssue "SEC002" .high "Обнаружен жестко закодированный секрет или пароль" f p
                ("Потенциальный жестко закодированный секрет в присваивании " ++ nm)]
            else []
        | _ => [])
  | .keyValueExpr p (.ident _ nm _) (.basicLit _ .string v) =>
      if isSensitiveName nm && isLikelySecret v then
        [newIssue "SEC002" .high "Обнаружен жестко закодированный секрет или пароль" f p
          ("Потенциальный жестко закодированный секрет в поле структуры или карте " ++ nm)]
      else []
  | .basicLit p .string v =>
      if containsSecretPattern v then
        [newIssue "SEC002" .high "Обнаружен жестко закодированный секрет или пароль" f p
          "Потенциальный жестко закодированный секрет в строковом литерале"]
      else []
  | _ => []

/-- `HardcodedSecretsRule.Check`. -/
def HardcodedSecretsRule.Check (f : GoFile) : List Issue :=
  f.nodes.flatMap (secretsNodeIssues f)

/-! ## SEC003: the insecure-HTTP rule -/

/-- `isTLSConfigLiteral`: the literal's type is the selector `tls.Config`. -/
def isTLSConfigLiteral : Ast → Bool
  | .compositeLit _ (some (.selectorExpr _ (.ident _ x _) sel)) _ =>
      x == "tls" && sel == "Config"
  | _ => false

/-- `isHTTPTransportLiteral`: type is `http.Transport`. -/
def isHTTPTransportLiteral : Ast → Bool
  | .compositeLit _ (some (.selectorExpr _ (.ident _ x _) sel)) _ =>
      x == "http" && sel == "Transport"
  | _ => false

/-- `isHTTPServerLiteral`: type is `http.Server`. -/
def isHTTPServerLiteral : Ast → Bool
  | .compositeLit _ (some (.selectorExpr _ (.ident _ x _) sel)) _ =>
      x == "http" && sel == "Server"
  | _ => false

/-- Shorthand for the rule's `NewIssue`. -/
def httpIssue (f : GoFile) (pos : Nat) (msg : String) : Issue :=
  newIssue "SEC003" .high "Обнаружены небезопасные настройки HTTP-сервера" f pos msg

/-- `checkTLSConfig`: flags `InsecureSkipVerify: true` and deprecated
`MinVersion` selector values. -/
def checkTLSConfig (f : GoFile) (elts : List Ast) : List Issue :=
  elts.flatMap (fun elt =>
    match elt with
    | .keyValueExpr kp (.ident _ kn _) v =>
        if kn == "InsecureSkipVerify" then
          match v with
          | .ident _ vn _ =>
              if vn == "true" then
                [httpIssue f kp
                  "InsecureSkipVerify=true отключает проверку сертификатов TLS, что опасно"]
              else []
          | _ => []
        else if kn == "MinVersion" then
          match v with
          | .selectorExpr _ (.ident _ xn _) sn =>
              if xn == "tls" &&
                  (sn == "VersionSSL30" || sn == "VersionTLS10" || sn == "VersionTLS11") then
                [httpIssue f kp ("Использование устаревшей и небезопасной версии TLS: " ++ sn)]
              else []
          | _ => []
        else []
    | _ => [])

/-- `checkHTTPTransport`: recurses into `TLSClientConfig` and flags disabling
keep-alive or compression. -/
def checkHTTPTransport (f : GoFile) (elts : List Ast) : List Issue :=
  elts.flatMap (fun elt =>
    match elt with
    | .keyValueExpr kp (.ident _ kn _) v =>
        if kn == "TLSClientConfig" then
          match v with
          | .compositeLit _ _ nested => checkTLSConfig f nested
          | _ => []
        else if kn == "DisableKeepAlives" || kn == "DisableCompression" then
          match v with
          | .ident _ vn _ =>
              if vn == "true" then
                [httpIssue f kp
                  ("Отключение " ++ kn ++
                    " может привести к проблемам безопасности или производительности")]
              else []
          | _ => []
        else []
    | _ => [])

/-- Does the element list of a composite literal contain a key/value pair
whose key identifier is named `kname`?  (The scan both timeout and
TLS-presence loops of `checkHTTPServer` perform.) -/
def eltsHaveKey (elts : List Ast) (kname : String) : Bool :=
  elts.any (fun o =>
    match o with
    | .keyValueExpr _ (.ident _ okn _) _ => okn == kname
    | _ => false)

/-- `checkHTTPServer`.  The timeout branch only runs when a
`ReadTimeout`/`WriteTimeout`/`IdleTimeout` key is present with a non-literal
value, and its inner scan over the same element list always finds that very
key again, clearing `hasMissingTimeout`; the code is translated as written. -/
def checkHTTPServer (f : GoFile) (litPos : Nat) (elts : List Ast) : List Issue :=
  (elts.flatMap (fun elt =>
    match elt with
    | .keyValueExpr _ (.ident _ kn _) v =>
        if kn == "TLSConfig" then
          match v with
          | .compositeLit _ _ nested => checkTLSConfig f nested
          | _ => []
        else if kn == "ReadTimeout" || kn == "WriteTimeout" || kn == "IdleTimeout" then
          match v with
          | .basicLit _ _ _ => []
          | _ =>
              let hasMissingTimeout := !eltsHaveKey elts kn
              if hasMissingTimeout then
                [httpIssue f litPos
                  ("Отсутствует важный таймаут " ++ kn ++
                    " для http.Server, что может сделать сервер уязвимым к DoS-атакам")]
              else []
        else []
    | _ => [])) ++
  (if eltsHaveKey elts "TLSConfig" then []
   else
     [httpIssue f litPos
       "HTTP-сервер не настроен для использования TLS (HTTPS), что небезопасно для производственной среды"])

/-- `isInsecureHTTPFunction`: `http.ListenAndServe`. -/
def isInsecureHTTPFunction : Ast → Bool
  | .selectorExpr _ (.ident _ xn _) sn => xn == "http" && sn == "ListenAndServe"
  | _ => false

/-- `isHTTPURLInCode` applied to one argument: a quoted string starting with
`http://`, excluding localhost and loopback addresses. -/
def isHTTPURLArg : Ast → Bool
  | .basicLit _ .string v =>
      let value := trimBy isQuoteChar v.data
      if ("http://".data).isPrefixOf value then
        !listHasSub "localhost".data value &&
          !listHasSub "http://127.0.0.1".data value &&
          !listHasSub "http://0.0.0.0".data value
      else false
  | _ => false

/-- `isHTTPURLInCode`: some call argument is a plain-HTTP URL literal. -/
def isHTTPURLInCode (args : List Ast) : Bool :=
  args.any isHTTPURLArg

/-- Issues the `ast.Inspect` callback of `InsecureHTTPRule.Check` emits at one
node. -/
def httpNodeIssues (f : GoFile) (n : Ast) : List Issue :=
  match n with
  | .compositeLit p ty elts =>
      if isTLSConfigLiteral (.compositeLit p ty elts) then checkTLSConfig f elts
      else if isHTTPTransportLiteral (.compositeLit p ty elts) then checkHTTPTransport f elts
      else if isHTTPServerLiteral (.compositeLit p ty elts) then checkHTTPServer f p elts
      else []
  | .callExpr p fn args =>
      (match fn with
       | .selectorExpr sp x sn =>
           if isInsecureHTTPFunction (.selectorExpr sp x sn) then
             [httpIssue f p ("Использование небезопасной HTTP-функции " ++ sn)]
           else []
       | _ => []) ++
      (if isHTTPURLInCode args then
        [httpIssue f p
          "Использование HTTP вместо HTTPS, что не рекомендуется с точки зрения безопасности"]
      else [])
  | _ => []

/-- `InsecureHTTPRule.Check`. -/
def InsecureHTTPRule.Check (f : GoFile) : List Issue :=
  f.nodes.flatMap (httpNodeIssues f)

/-! ## SEC004: the missing-error-check rule

`Check` is modelled as `Option`-valued: `none` is the run-time panic raised
when the first pass evaluates `ident.Obj.Pos()` on an identifier whose
resolved object is nil — the source guards the `Obj` dereference in its
logging and return branches but not in the comparison branch.
-/

/-- The `criticalFunctions` vocabulary. -/
def criticalFunctions : List String :=
  ["Write", "WriteString", "Read", "ReadAll", "Close", "Exec", "Query", "QueryRow",
   "Open", "Create", "ReadFile", "WriteFile", "Unmarshal", "Marshal", "NewDecoder",
   "NewEncoder", "Decode", "Encode", "Scan", "New", "Listen", "ListenAndServe",
   "ListenAndServeTLS", "Dial", "DialTLS", "Connect", "Start", "Run", "Copy"]

/-- `strings.HasSuffix`-style suffix test on character lists. -/
def listEndsWith (pat s : List Char) : Bool :=
  pat.reverse.isPrefixOf s.reverse

/-- An identifier name that looks like an error (`isErrorCheck`'s final
test): ends in `err`, or is `e` or `error`. -/
def isErrLikeName (n : String) : Bool :=
  listEndsWith "err".data n.data || n == "e" || n == "error"

/-- `isErrorCheck`: `x != nil` / `x == nil` (or the reversed operand order)
where the non-nil side is an error-like identifier. -/
def isErrorCheck : Ast → Bool
  | .binaryExpr _ op x y =>
      if op == .neq || op == .eql then
        match x, y with
        | .ident _ xn _, .ident _ yn _ =>
            if yn == "nil" then isErrLikeName xn
            else if xn == "nil" then isErrLikeName yn
            else false
        | _, _ => false
      else false
  | _ => false

/-- `isLoggingFunction`: recognized logging/printing selector targets. -/
def isLoggingFunction : Ast → Bool
  | .selectorExpr _ (.ident _ pkg _) fn =>
      (pkg == "log" &&
        ["Fatal", "Fatalf", "Print", "Printf", "Panic", "Panicf"].contains fn) ||
      (pkg == "fmt" &&
        ["Print", "Printf", "Println", "Sprint", "Sprintf", "Sprintln"].contains fn) ||
      (["logger", "logging", "logrus", "zap", "zerolog"].contains pkg &&
        ["Error", "Errorf", "Warn", "Warnf", "Info", "Infof", "Debug", "Debugf"].contains fn)
  | _ => false

/-- One step of the first pass: extend the set of checked error declaration
positions, or fail (`none`) at the unguarded nil-`Obj` dereference. -/
def pass1Step (checked : List Nat) (n : Ast) : Option (List Nat) :=
  match n with
  | .binaryExpr p op x y =>
      if isErrorCheck (.binaryExpr p op x y) then
        match x with
        | .ident _ _ (some objPos) => some (objPos :: checked)
        | .ident _ _ none => none
        | _ => some checked
      else some checked
  | .callExpr _ (.selectorExpr sp sx ssel) args =>
      if isLoggingFunction (.selectorExpr sp sx ssel) then
        some (args.foldl (fun acc a =>
          match a with
          | .ident _ _ (some objPos) => objPos :: acc
          | _ => acc) checked)
      else some checked
  | .returnStmt _ results =>
      some (results.foldl (fun acc r =>
        match r with
        | .ident _ _ (some objPos) => objPos :: acc
        | _ => acc) checked)
  | _ => some checked

/-- The first pass over all nodes. -/
def runPass1 (checked : List Nat) : List Ast → Option (List Nat)
  | [] => some checked
  | n :: rest =>
      match pass1Step checked n with
      | none => none
      | some c2 => runPass1 c2 rest

/-- Shorthand for the rule's `NewIssue`. -/
def errIssue (f : GoFile) (pos : Nat) (msg : String) : Issue :=
  newIssue "SEC004" .medium "Отсутствует проверка ошибки после критической операции" f pos msg

/-- Issues the second pass emits at one node. -/
def errcheckNodeIssues (f : GoFile) (checked : List Nat) (n : Ast) : List Issue :=
  match n with
  | .assignStmt p lhs tok rhs =>
      if tok == .define || tok == .assign then
        if rhs.length == 1 then
          match rhs.head? with
          | some (.callExpr _ fn _) =>
              if 2 ≤ lhs.length then
                match lhs.getLast? with
                | some (.ident _ nm (some objPos)) =>
                    if nm == "err" && !checked.contains objPos then
                      match fn with
                      | .selectorExpr _ _ sel =>
                          if criticalFunctions.contains sel then
                            [errIssue f p
                              ("Отсутствует проверка ошибки после вызова критической функции " ++ sel)]
                          else []
                      | _ => []
                    else []
                | _ => []
              else []
          | _ => []
        else
          rhs.enum.flatMap (fun pr =>
            if pr.1 < lhs.length then
              match pr.2 with
              | .callExpr _ (.selectorExpr _ _ sel) _ =>
                  if criticalFunctions.contains sel then
                    lhs.enum.flatMap (fun lp =>
                      if lp.1 < rhs.length then
                        match lp.2 with
                        | .ident _ nm (some objPos) =>
                            if nm == "err" && !checked.contains objPos then
                              [errIssue f p
                                ("Отсутствует проверка ошибки после вызова критической функции " ++ sel)]
                            else []
                        | _ => []
                      else [])
                  else []
              | _ => []
            else [])
      else []
  | .exprStmt p x =>
      match x with
      | .callExpr _ (.selectorExpr _ _ sel) _ =>
          if criticalFunctions.contains sel then
            [errIssue f p ("Результат вызова критической функции " ++ sel ++ " игнорируется")]
          else []
      | _ => []
  | _ => []

/-- `MissingErrorCheckRule.Check`; `none` models the panic. -/
def MissingErrorCheckRule.Check (f : GoFile) : Option (List Issue) :=
  match runPass1 [] f.nodes with
  | none => none
  | some checked => some (f.nodes.flatMap (errcheckNodeIssues f checked))

/-! ## SEC005: the insecure-crypto rule

The rule's `insecureCipherAlgorithms` and `weakKeyLengths` maps are
constructed but never consulted by `Check` (the cipher and key-size checks
hardcode their package names and thresholds), so they have no counterpart
here.
-/

/-- The `insecureHashAlgorithms` vocabulary (consulted for `crypto.X`
selectors). -/
def insecureHashAlgorithms : List String :=
  ["MD4", "MD5", "SHA1", "RIPEMD160"]

/-- The `deprecatedCryptoFunctions` map (consulted for the `cipher`
package). -/
def deprecatedCryptoFunctions : List (String × String) :=
  [("GenerateKey", "Использование GenerateKey может быть небезопасно без надлежащей энтропии"),
   ("NewCipher", "Убедитесь, что используется безопасный алгоритм шифрования"),
   ("Seal", "Проверьте используемые параметры аутентификации"),
   ("Open", "Проверьте используемые параметры аутентификации"),
   ("NewCBCEncrypter", "Режим CBC может быть уязвим к padding oracle attack"),
   ("NewCBCDecrypter", "Режим CBC может быть уязвим к padding oracle attack"),
   ("NewCTR", "Режим CTR требует уникального nonce для каждого сообщения"),
   ("NewOFB", "Режим OFB требует уникального IV для каждого сообщения"),
   ("NewCFB", "Режим CFB требует уникального IV для каждого сообщения"),
   ("GenerateFromPassword", "Проверьте используемые параметры стоимости для bcrypt")]

/-- Map lookup. -/
def lookupMsg (l : List (String × String)) (k : String) : Option String :=
  (l.find? (fun pr => pr.1 == k)).map Prod.snd

/-- The crypto-import gate of `Check`: some import path starts with
`crypto/` or contains `crypto`, `cipher` or `hash`. -/
def hasCryptoImport (f : GoFile) : Bool :=
  f.imports.any (fun path =>
    ("crypto/".data).isPrefixOf path.data || strContainsStr path "crypto" ||
      strContainsStr path "cipher" || strContainsStr path "hash")

/-- `isImportedFromCrypto`: the file imports exactly `crypto/<pkgName>`. -/
def isImportedFromCrypto (f : GoFile) (pkgName : String) : Bool :=
  f.imports.any (fun path => path == "crypto/" ++ pkgName)

/-- Shorthand for the rule's `NewIssue`. -/
def cryptoIssue (f : GoFile) (pos : Nat) (msg : String) : Issue :=
  newIssue "SEC005" .high
    "Использование устаревших или небезопасных криптографических функций" f pos msg

/-- `checkCryptoCall`: per-package checks on a selector call
`pkgName.funcName(args)` at position `callPos`. -/
def checkCryptoCall (f : GoFile) (pkgName funcName : String) (callPos : Nat)
    (args : List Ast) : List Issue :=
  (if pkgName == "md5" && funcName == "New" then
    [cryptoIssue f callPos "Использование MD5 не рекомендуется для криптографических целей"]
  else []) ++
  (if pkgName == "sha1" && funcName == "New" then
    [cryptoIssue f callPos "Использование SHA1 не рекомендуется для криптографических целей"]
  else []) ++
  (if pkgName == "des" && (funcName == "NewCipher" || funcName == "NewTripleDESCipher") then
    [cryptoIssue f callPos "DES и 3DES считаются устаревшими и небезопасными, используйте AES"]
  else []) ++
  (if pkgName == "rc4" && funcName == "NewCipher" then
    [cryptoIssue f callPos
      "RC4 считается криптографически слабым, используйте современные AEAD шифры"]
  else []) ++
  (if pkgName == "cipher" then
    match lookupMsg deprecatedCryptoFunctions funcName with
    | some msg => [cryptoIssue f callPos msg]
    | none => []
  else []) ++
  (if pkgName == "rand" && funcName == "Read" then
    if !isImportedFromCrypto f "rand" then
      [cryptoIssue f callPos
        "Использование небезопасного генератора случайных чисел, используйте crypto/rand"]
    else []
  else []) ++
  (if pkgName == "bcrypt" && funcName == "GenerateFromPassword" then
    if 2 ≤ args.length then
      match args.get? 1 with
      | some (.basicLit _ .int v) =>
          if v == "4" || v == "5" || v == "6" then
            [cryptoIssue f callPos
              "Слишком низкое значение стоимости для bcrypt, используйте как минимум 10"]
          else []
      | _ => []
    else []
  else [])

/-- `checkKeyGeneration`: the `rsa.GenerateKey` size check (its literal text
read by `fmt.Sscanf` with `%d`, modelled as decimal parsing) and the
`aes.NewCipher` check, which as written measures the length of the argument
identifier's name. -/
def checkKeyGeneration (f : GoFile) (pkgName funcName : String) (callPos : Nat)
    (args : List Ast) : List Issue :=
  (if pkgName == "rsa" && funcName == "GenerateKey" then
    match args.get? 0 with
    | some (.basicLit _ .int v) =>
        match v.toNat? with
        | some value =>
            if value < 2048 then
              [cryptoIssue f callPos
                "Используется недостаточно безопасная длина ключа RSA, должно быть >= 2048 бит"]
            else []
        | none => []
    | _ => []
  else []) ++
  (if pkgName == "aes" && funcName == "NewCipher" then
    match args.get? 0 with
    | some (.ident _ nm _) =>
        if nm.length < 16 then
          [cryptoIssue f callPos
            "Слишком короткий ключ для AES, должно быть минимум 16 байтов (128 бит)"]
        else []
    | _ => []
  else [])

/-- Issues the `ast.Inspect` callback of `InsecureCryptoRule.Check` emits at
one node. -/
def cryptoNodeIssues (f : GoFile) (n : Ast) : List Issue :=
  match n with
  | .selectorExpr p (.ident _ xn _) sel =>
      (if xn == "md5" || xn == "sha1" then
        [cryptoIssue f p ("Использование небезопасного алгоритма хеширования: " ++ xn)]
      else []) ++
      (if xn == "des" || xn == "rc4" then
        [cryptoIssue f p ("Использование устаревшего шифра: " ++ xn)]
      else []) ++
      (if xn == "crypto" && insecureHashAlgorithms.contains sel then
        [cryptoIssue f p ("Использование небезопасного алгоритма хеширования: " ++ sel)]
      else [])
  | .callExpr p (.selectorExpr _ (.ident _ xn _) sel) args =>
      checkCryptoCall f xn sel p args
  | .valueSpec _ _ vals =>
      vals.flatMap (fun v =>
        match v with
        | .callExpr p (.selectorExpr _ (.ident _ xn _) sel) args =>
            checkKeyGeneration f xn sel p args
        | _ => [])
  | _ => []

/-- `InsecureCryptoRule.Check`: gated on a crypto-related import. -/
def InsecureCryptoRule.Check (f : GoFile) : List Issue :=
  if !hasCryptoImport f then [] else f.nodes.flatMap (cryptoNodeIssues f)

/-! ## The analyzer (`internal/analyzer`)

`AnalyzeFiles` launches one goroutine per file under a 10-slot semaphore and
appends each file's issues to a mutex-guarded slice, returning `(allIssues,
nil)` after the join.  The multiset of appended issues is independent of the
interleaving, so the dispatcher is modelled by the sequential fold; the rules
are the analyzer's rule values, abstracted to their `ID`/`Check` interface
with `Check` total (per-rule totality is examined separately on the rules
themselves).  The configuration collaborator enters through its two oracle
capabilities, `ShouldExclude` and `IsRuleEnabled`, per the spec's boundary;
reading and parsing are fused into one oracle `fs` whose `none` covers both
`os.ReadFile` and `parser.ParseFile` failures.
-/

/-- A rule value as the dispatcher sees it. -/
structure MRule where
  id : String
  check : GoFile → List Issue

/-- The analyzer: its rule list and the configuration oracles. -/
structure MAnalyzer where
  rules : List MRule
  excludeOracle : String → Bool
  enabledOracle : String → Bool

/-- `Analyzer.analyzeFile`: excluded files are skipped before reading; a
read/parse failure is an error; otherwise every enabled rule runs over the
context. -/
def analyzeFile (a : MAnalyzer) (fs : String → Option GoFile) (path : String) :
    Except Unit (List Issue) :=
  if a.excludeOracle path then .ok []
  else
    match fs path with
    | none => .error ()
    | some f =>
        .ok ((a.rules.filter (fun r => a.enabledOracle r.id)).flatMap (fun r => r.check f))

/-- `Analyzer.AnalyzeFiles`: per-file errors are logged and contribute
nothing; the error result is always `nil`. -/
def AnalyzeFiles (a : MAnalyzer) (fs : String → Option GoFile) (paths : List String) :
    List Issue × Option Unit :=
  (paths.flatMap (fun p =>
     match analyzeFile a fs p with
     | .error _ => []
     | .ok issues => issues),
   none)

/-- A path whose file is analyzed: not excluded, and read/parse succeeded. -/
def fileSucceeds (a : MAnalyzer) (fs : String → Option GoFile) (p : String) : Bool :=
  !a.excludeOracle p && (fs p).isSome

/-- The issues of one successfully analyzed file. -/
def perFileIssues (a : MAnalyzer) (fs : String → Option GoFile) (p : String) :
    List Issue :=
  match fs p with
  | some f => (a.rules.filter (fun r => a.enabledOracle r.id)).flatMap (fun r => r.check f)
  | none => []

/-! ## Concrete scenario files

Embeddings of the spec's scenario files.  Positions are arbitrary but
pairwise distinct, standing in for the distinct `token.Pos` offsets of a real
parse; an identifier's `obj` is the position of its declaration, `none` where
`go/parser` leaves `Obj` nil (predeclared `nil`, the blank identifier, and
imported package names, which no rule's `Obj` access reaches).
-/

/-- `query := "SELECT * FROM t WHERE u='" + u + "'"` followed by
`db.Query(query)` (claim C4's scenario). -/
def fileC4 : GoFile :=
  { filePath := "t.go", packageName := "main", imports := ["database/sql"],
    decls := [
      .funcDecl 1 "f" [
        .assignStmt 2 [.ident 3 "query" (some 3)] .define
          [.binaryExpr 4 .add
            (.binaryExpr 5 .add
              (.basicLit 6 .string "\x22SELECT * FROM t WHERE u=\x27\x22")
              (.ident 7 "u" (some 90)))
            (.basicLit 8 .string "\x22\x27\x22")],
        .exprStmt 9
          (.callExpr 10
            (.selectorExpr 11 (.ident 12 "db" (some 91)) "Query")
            [.ident 13 "query" (some 3)])]] }

/-- A file whose error comparison is written in reversed operand order,
`if nil != err { return }` (claim C5's scenario). -/
def fileC5 : GoFile :=
  { filePath := "e.go", packageName := "main", imports := ["os"],
    decls := [
      .funcDecl 1 "g" [
        .assignStmt 2 [.ident 3 "f" (some 3), .ident 4 "err" (some 4)] .define
          [.callExpr 5 (.selectorExpr 6 (.ident 7 "os" none) "Open")
            [.basicLit 8 .string "\x22a.txt\x22"]],
        .ifStmt 9
          (.binaryExpr 10 .neq (.ident 11 "nil" none) (.ident 12 "err" (some 4)))
          [.returnStmt 13 []]]] }

/-- The elements of an `http.Server` literal with no timeout keys. -/
def serverEltsC6 : List Ast :=
  [.keyValueExpr 7 (.ident 8 "Addr" none) (.basicLit 9 .string "\x22:8080\x22")]

/-- `srv := http.Server{Addr: ":8080"}`: a server literal with no
`ReadTimeout`, `WriteTimeout` or `IdleTimeout` key (claim C6's scenario). -/
def fileC6 : GoFile :=
  { filePath := "s.go", packageName := "main", imports := ["net/http"],
    decls := [
      .funcDecl 1 "serve" [
        .assignStmt 2 [.ident 3 "srv" (some 3)] .define
          [.compositeLit 4
            (some (.selectorExpr 5 (.ident 6 "http" none) "Server"))
            serverEltsC6]]] }

/-- `cfg := Config{Secret: "secretValue12345", APIKey: "abcdef1234567890"}`
(claim C7's scenario). -/
def fileC7 : GoFile :=
  { filePath := "c.go", packageName := "main", imports := [],
    decls := [
      .funcDecl 1 "init" [
        .assignStmt 2 [.ident 3 "cfg" (some 3)] .define
          [.compositeLit 4 (some (.ident 5 "Config" none))
            [.keyValueExpr 6 (.ident 7 "Secret" none)
              (.basicLit 8 .string "\x22secretValue12345\x22"),
             .keyValueExpr 9 (.ident 10 "APIKey" none)
              (.basicLit 11 .string "\x22abcdef1234567890\x22")]]]] }

/-- `f, _ := os.Create("test.txt")` followed by bare `f.Write("data")` and
`f.Close()` statements (claim C8's scenario). -/
def fileC8 : GoFile :=
  { filePath := "w.go", packageName := "main", imports := ["os"],
    decls := [
      .funcDecl 1 "criticalOperationsWithoutCheck" [
        .assignStmt 2 [.ident 3 "f" (some 3), .ident 4 "_" none] .define
          [.callExpr 5 (.selectorExpr 6 (.ident 7 "os" none) "Create")
            [.basicLit 8 .string "\x22test.txt\x22"]],
        .exprStmt 9
          (.callExpr 10 (.selectorExpr 11 (.ident 12 "f" (some 3)) "Write")
            [.basicLit 13 .string "\x22data\x22"]),
        .exprStmt 14
          (.callExpr 15 (.selectorExpr 16 (.ident 17 "f" (some 3)) "Close") [])]] }

/-- `bcrypt.GenerateFromPassword(pwd, <cost>)` in a file importing
`golang.org/x/crypto/bcrypt` (claim C9's scenario, parameterized by the cost
literal's text). -/
def bcryptFile (cost : String) : GoFile :=
  { filePath := "b.go", packageName := "main", imports := ["golang.org/x/crypto/bcrypt"],
    decls := [
      .funcDecl 1 "h" [
        .exprStmt 2
          (.callExpr 3
            (.selectorExpr 4 (.ident 5 "bcrypt" none) "GenerateFromPassword")
            [.ident 6 "pwd" (some 90), .basicLit 7 .int cost])]] }

/-! ## Helper lemmas -/

/-- The five severity ranks are pairwise distinct. -/
theorem severityOrder_inj : ∀ s t : Severity, severityOrder s = severityOrder t → s = t := by
  intro s t
  cases s <;> cases t <;> decide

/-- The comparator of `sortIssues` rejects `(b, a)` exactly when the
lexicographic key of `a` is at most that of `b`. -/
theorem issueLess_false_iff (a b : Issue) : issueLess b a = false ↔ issueKeyLE a b := by
  unfold issueLess issueKeyLE
  split_ifs with h1 h2
  · have hne : b.severity ≠ a.severity := by simpa using h1
    have hrne : severityOrder a.severity ≠ severityOrder b.severity :=
      fun hEq => hne (severityOrder_inj _ _ hEq.symm)
    rw [decide_eq_false_iff_not]
    constructor
    · intro h
      exact Or.inl (by omega)
    · rintro (h | ⟨hEq, _⟩)
      · omega
      · exact absurd hEq hrne
  · have hs : b.severity = a.severity := by simpa using h1
    have hra : severityOrder a.severity = severityOrder b.severity := by rw [hs]
    have hpne : b.filePath ≠ a.filePath := by simpa using h2
    rw [decide_eq_false_iff_not]
    constructor
    · intro h
      exact Or.inr ⟨hra, Or.inl (lt_of_le_of_ne (not_lt.mp h) (Ne.symm hpne))⟩
    · rintro (h | ⟨_, hp | ⟨hfe, _⟩⟩)
      · omega
      · exact lt_asymm hp
      · exact absurd hfe.symm hpne
  · have hs : b.severity = a.severity := by simpa using h1
    have hra : severityOrder a.severity = severityOrder b.severity := by rw [hs]
    have hpe : b.filePath = a.filePath := by simpa using h2
    rw [decide_eq_false_iff_not]
    constructor
    · intro h
      exact Or.inr ⟨hra, Or.inr ⟨hpe.symm, by omega⟩⟩
    · rintro (h | ⟨_, hp | ⟨_, hl⟩⟩)
      · omega
      · exact absurd (hpe ▸ hp) (lt_irrefl _)
      · omega

/-- The lexicographic key order is total. -/
theorem issueKeyLE_total (a b : Issue) : issueKeyLE a b ∨ issueKeyLE b a := by
  unfold issueKeyLE
  rcases lt_trichotomy (severityOrder a.severity) (severityOrder b.severity) with h | h | h
  · exact Or.inl (Or.inl h)
  · rcases lt_trichotomy a.filePath b.filePath with hp | hp | hp
    · exact Or.inl (Or.inr ⟨h, Or.inl hp⟩)
    · rcases Nat.le_total a.line b.line with hl | hl
      · exact Or.inl (Or.inr ⟨h, Or.inr ⟨hp, hl⟩⟩)
      · exact Or.inr (Or.inr ⟨h.symm, Or.inr ⟨hp.symm, hl⟩⟩)
    · exact Or.inr (Or.inr ⟨h.symm, Or.inl hp⟩)
  · exact Or.inr (Or.inl h)

/-- The lexicographic key order is transitive. -/
theorem issueKeyLE_trans (a b c : Issue) :
    issueKeyLE a b → issueKeyLE b c → issueKeyLE a c := by
  unfold issueKeyLE
  rintro (h1 | ⟨h1, hp1⟩) (h2 | ⟨h2, hp2⟩)
  · exact Or.inl (h1.trans h2)
  · exact Or.inl (by omega)
  · exact Or.inl (by omega)
  · refine Or.inr ⟨by omega, ?_⟩
    rcases hp1 with hp1 | ⟨hfe1, hl1⟩
    · rcases hp2 with hp2 | ⟨hfe2, hl2⟩
      · exact Or.inl (hp1.trans hp2)
      · exact Or.inl (lt_of_lt_of_le hp1 (le_of_eq hfe2))
    · rcases hp2 with hp2 | ⟨hfe2, hl2⟩
      · exact Or.inl (lt_of_le_of_lt (le_of_eq hfe1) hp2)
      · exact Or.inr ⟨hfe1.trans hfe2, hl1.trans hl2⟩

/-- A text matched by the unsafe-placeholder regex contains a `%`. -/
theorem hasUnsafePlaceholder_containsPercent :
    ∀ l, hasUnsafePlaceholder l = true → containsPercent l = true := by
  intro l
  induction l with
  | nil => simp [hasUnsafePlaceholder]
  | cons a tl ih =>
      cases tl with
      | nil => simp [hasUnsafePlaceholder]
      | cons b rest =>
          intro h
          simp only [hasUnsafePlaceholder, Bool.or_eq_true, Bool.and_eq_true] at h
          simp only [containsPercent, List.any_cons, Bool.or_eq_true]
          rcases h with ⟨ha, _⟩ | h
          · exact Or.inl ha
          · have h2 := ih h
            simp only [containsPercent, List.any_cons, Bool.or_eq_true] at h2
            exact Or.inr h2

/-- In a text that does not end in a bare `%`, every `%` starts a
placeholder, so containing a `%` means matching the safe- or the
unsafe-placeholder regex. -/
theorem percent_has_placeholder :
    ∀ l, noTrailingPercent l = true → containsPercent l = true →
      (hasSafePlaceholder l || hasUnsafePlaceholder l) = true := by
  intro l
  induction l with
  | nil => simp [containsPercent]
  | cons a tl ih =>
      cases tl with
      | nil =>
          intro hnt hcp
          simp only [noTrailingPercent, bne_iff_ne, ne_eq] at hnt
          simp only [containsPercent, List.any_cons, List.any_nil, Bool.or_false,
            beq_iff_eq] at hcp
          exact absurd hcp hnt
      | cons b rest =>
          intro hnt hcp
          have hnt' : noTrailingPercent (b :: rest) = true := hnt
          simp only [containsPercent, List.any_cons, Bool.or_eq_true, beq_iff_eq] at hcp
          simp only [hasSafePlaceholder, hasUnsafePlaceholder, Bool.or_eq_true,
            Bool.and_eq_true]
          rcases hcp with ha | hcp
          · by_cases hb : safeVerbs.contains b
            · exact Or.inl (Or.inl ⟨by simp [ha], hb⟩)
            · exact Or.inr (Or.inl ⟨by simp [ha], by simpa using hb⟩)
          · have h2 := ih hnt' (by
              simp only [containsPercent, List.any_cons, Bool.or_eq_true, beq_iff_eq]
              exact hcp)
            simp only [Bool.or_eq_true] at h2
            rcases h2 with h | h
            · exact Or.inl (Or.inr h)
            · exact Or.inr (Or.inr h)

/-- On well-formed templates, the source's riskiness test agrees with the
spec's description of "risky". -/
theorem isRisky_eq_spec (a : Ast) (hwf : sprintfTemplateOk a = true) :
    isRiskySQLQuery a = riskySpecSQLArg a := by
  cases a with
  | basicLit p k v => rfl
  | binaryExpr p op x y => rfl
  | ident p n o => rfl
  | callExpr p fn args =>
      cases fn with
      | selectorExpr sp sx ssel =>
          cases args with
          | nil => rfl
          | cons a0 rest =>
              cases a0 with
              | basicLit lp lk lv =>
                  by_cases h1 : ssel = "Sprintf"
                  · by_cases h2 : lk = LitKind.string
                    · subst h1; subst h2
                      have hnt : noTrailingPercent lv.data = true := by
                        simpa [sprintfTemplateOk] using hwf
                      simp only [isRiskySQLQuery, riskySpecSQLArg, beq_self_eq_true,
                        Bool.and_self, Bool.true_and, if_true]
                      by_cases hu : hasUnsafePlaceholder lv.data = true
                      · have hcp := hasUnsafePlaceholder_containsPercent _ hu
                        simp [hcp, hu]
                      · have hu' : hasUnsafePlaceholder lv.data = false := by
                          simpa using hu
                        by_cases hcp : containsPercent lv.data = true
                        · have hsu := percent_has_placeholder _ hnt hcp
                          have hsafe : hasSafePlaceholder lv.data = true := by
                            rcases (by simpa using hsu :
                                hasSafePlaceholder lv.data = true ∨
                                  hasUnsafePlaceholder lv.data = true) with h | h
                            · exact h
                            · exact absurd h (by simp [hu'])
                          simp [hcp, hsafe, hu']
                        · have hcp' : containsPercent lv.data = false := by
                            simpa using hcp
                          simp [hcp', hu']
                    · simp [isRiskySQLQuery, riskySpecSQLArg, h2]
                  · simp [isRiskySQLQuery, riskySpecSQLArg, h1]
              | ident np nn no => rfl
              | binaryExpr np nop nx ny => rfl
              | callExpr np nfn nargs => rfl
              | selectorExpr np nx ns => rfl
              | compositeLit np nty nelts => rfl
              | keyValueExpr np nk nv => rfl
              | valueSpec np nns nvs => rfl
              | assignStmt np nl nt nr => rfl
              | exprStmt np nx => rfl
              | returnStmt np nrs => rfl
              | ifStmt np nc nb => rfl
              | funcDecl np nn nb => rfl
      | ident np nn no => rfl
      | basicLit np nk nv => rfl
      | binaryExpr np nop nx ny => rfl
      | callExpr np nfn nargs => rfl
      | compositeLit np nty nelts => rfl
      | keyValueExpr np nk nv => rfl
      | valueSpec np nns nvs => rfl
      | assignStmt np nl nt nr => rfl
      | exprStmt np nx => rfl
      | returnStmt np nrs => rfl
      | ifStmt np nc nb => rfl
      | funcDecl np nn nb => rfl
  | selectorExpr p x s => rfl
  | compositeLit p ty elts => rfl
  | keyValueExpr p k v => rfl
  | valueSpec p ns vs => rfl
  | assignStmt p l t r => rfl
  | exprStmt p x => rfl
  | returnStmt p rs => rfl
  | ifStmt p c b => rfl
  | funcDecl p n b => rfl

/-! ## The claims -/

/-- Claim C1: for every list of issues, `sortIssues` produces a permutation
of its input that is non-decreasing in the lexicographic key (severity rank,
file path, line), where the severity ranks are Critical = 0, High = 1,
Medium = 2, Low = 3, Info = 4 and these five ranks are pairwise distinct. -/
theorem sortIssues_perm_sorted_lex (l : List Issue) :
    (sortIssues l).Perm l ∧ (sortIssues l).Sorted issueKeyLE ∧
      severityOrder .critical = 0 ∧ severityOrder .high = 1 ∧
      severityOrder .medium = 2 ∧ severityOrder .low = 3 ∧ severityOrder .info = 4 ∧
      ∀ s t : Severity, severityOrder s = severityOrder t → s = t := by
  refine ⟨List.perm_insertionSort _ l, ?_, rfl, rfl, rfl, rfl, rfl, severityOrder_inj⟩
  haveI htot : IsTotal Issue (fun a b : Issue => issueLess b a = false) := ⟨fun a b => by
    rcases issueKeyLE_total a b with h | h
    · exact Or.inl ((issueLess_false_iff a b).mpr h)
    · exact Or.inr ((issueLess_false_iff b a).mpr h)⟩
  haveI htr : IsTrans Issue (fun a b : Issue => issueLess b a = false) := ⟨fun a b c hab hbc =>
    (issueLess_false_iff a c).mpr
      (issueKeyLE_trans a b c ((issueLess_false_iff a b).mp hab)
        ((issueLess_false_iff b c).mp hbc))⟩
  have hs := List.sorted_insertionSort (fun a b : Issue => issueLess b a = false) l
  exact List.Pairwise.imp (fun h => (issueLess_false_iff _ _).mp h) hs

/-- Claim C2: for every list of file paths, `AnalyzeFiles` returns a nil
error, and its issue list is, up to order, the concatenation of the per-file
issues of exactly those files that were read and parsed successfully and are
not excluded by configuration; a file whose read or parse fails contributes
zero issues and does not prevent the issues of the other files. -/
theorem analyzeFiles_isolates_per_file_failures (a : MAnalyzer)
    (fs : String → Option GoFile) (paths : List String) :
    (AnalyzeFiles a fs paths).2 = none ∧
      ((AnalyzeFiles a fs paths).1).Perm
        ((paths.filter (fun p => fileSucceeds a fs p)).flatMap (perFileIssues a fs)) := by
  refine ⟨rfl, ?_⟩
  have h : ∀ ps : List String, (AnalyzeFiles a fs ps).1 =
      (ps.filter (fun p => fileSucceeds a fs p)).flatMap (perFileIssues a fs) := by
    intro ps
    induction ps with
    | nil => rfl
    | cons p rest ih =>
        have hA : (AnalyzeFiles a fs (p :: rest)).1 =
            (match analyzeFile a fs p with
             | .error _ => []
             | .ok issues => issues) ++ (AnalyzeFiles a fs rest).1 := by
          simp [AnalyzeFiles]
        by_cases hex : a.excludeOracle p
        · have h1 : analyzeFile a fs p = .ok [] := by simp [analyzeFile, hex]
          have h2 : fileSucceeds a fs p = false := by simp [fileSucceeds, hex]
          rw [hA, h1, List.filter_cons, h2]
          simpa using ih
        · cases hfs : fs p with
          | none =>
              have h1 : analyzeFile a fs p = .error () := by simp [analyzeFile, hex, hfs]
              have h2 : fileSucceeds a fs p = false := by simp [fileSucceeds, hex, hfs]
              rw [hA, h1, List.filter_cons, h2]
              simpa using ih
          | some gf =>
              have h1 : analyzeFile a fs p =
                  .ok ((a.rules.filter (fun r => a.enabledOracle r.id)).flatMap
                    (fun r => r.check gf)) := by simp [analyzeFile, hex, hfs]
              have h2 : fileSucceeds a fs p = true := by simp [fileSucceeds, hex, hfs]
              have h3 : perFileIssues a fs p =
                  (a.rules.filter (fun r => a.enabledOracle r.id)).flatMap
                    (fun r => r.check gf) := by simp [perFileIssues, hfs]
              rw [hA, h1, List.filter_cons, h2]
              simp [h3, ih]
  rw [h paths]

/-- Claim C3: for every call whose target method name is in the
vulnerable-SQL vocabulary and that has at least one argument, the
injection-risk rule's call branch flags the call iff the first argument is
risky in the spec's sense (identifier, `+` concatenation, or a non-safe
`Sprintf` call); a bare string literal is never risky.  Well-formedness of
the `Sprintf` template (its text does not end in a bare `%`, true of every
real Go string literal) is assumed. -/
theorem sqlInjection_flags_iff_risky (p q : Nat) (recv a : Ast) (m : String)
    (args : List Ast) (hm : isVulnerableSQLMethod m = true)
    (hwf : sprintfTemplateOk a = true) :
    (sqlCallFlagged (.callExpr p (.selectorExpr q recv m) (a :: args)) = riskySpecSQLArg a) ∧
      (∀ f : GoFile,
        (sqlNodeIssues f (.callExpr p (.selectorExpr q recv m) (a :: args))).length =
          if riskySpecSQLArg a = true then 1 else 0) ∧
      ∀ pos k v, riskySpecSQLArg (.basicLit pos k v) = false := by
  have hflag : sqlCallFlagged (.callExpr p (.selectorExpr q recv m) (a :: args))
      = riskySpecSQLArg a := by
    show (isVulnerableSQLMethod m && isRiskySQLQuery a) = riskySpecSQLArg a
    rw [hm, Bool.true_and, isRisky_eq_spec a hwf]
  refine ⟨hflag, ?_, fun pos k v => rfl⟩
  intro f
  show ((if sqlCallFlagged (.callExpr p (.selectorExpr q recv m) (a :: args)) = true
      then [newIssue "SEC001" .critical "Потенциальная SQL-инъекция обнаружена" f
        (Ast.callExpr p (.selectorExpr q recv m) (a :: args)).pos
        "Возможная SQL-инъекция: используйте подготовленные запросы с параметрами"]
      else []) ++ []).length = _
  rw [hflag]
  by_cases hr : riskySpecSQLArg a = true
  · simp [hr]
  · have hr' : riskySpecSQLArg a = false := by simpa using hr
    simp [hr']

/-- Witness for claim C3's theorem: `db.Query(q)` with an identifier
argument. -/
theorem sqlInjection_flags_iff_risky_witness :
    (isVulnerableSQLMethod "Query" = true ∧ sprintfTemplateOk (.ident 20 "q" none) = true) ∧
      ((sqlCallFlagged (.callExpr 21 (.selectorExpr 22 (.ident 23 "db" none) "Query")
          [.ident 20 "q" none]) = riskySpecSQLArg (.ident 20 "q" none)) ∧
        (∀ f : GoFile,
          (sqlNodeIssues f (.callExpr 21 (.selectorExpr 22 (.ident 23 "db" none) "Query")
            [.ident 20 "q" none])).length =
            if riskySpecSQLArg (.ident 20 "q" none) = true then 1 else 0) ∧
        ∀ pos k v, riskySpecSQLArg (.basicLit pos k v) = false) :=
  ⟨⟨rfl, rfl⟩,
    sqlInjection_flags_iff_risky 21 22 (.ident 23 "db" none) (.ident 20 "q" none)
      "Query" [] rfl rfl⟩

/-- Claim C4 (code bug): on the scenario file — `query := "SELECT * FROM t
WHERE u='" + u + "'"` followed by `db.Query(query)` — the rule emits two
issues, not the single issue the spec and the repository's own test expect:
one from the call branch (identifier argument) and one from the
string-literal branch (the SELECT literal is an operand of a `+`). -/
theorem sqlInjection_scenario_yields_two_issues :
    (SQLInjectionRule.Check fileC4).length = 2 := rfl

/-- Claim C5 (code bug): on a file containing the reversed comparison
`nil != err`, the first pass of `MissingErrorCheckRule.Check` dereferences
the nil `Obj` of the `nil` identifier (the comparison branch lacks the
`Obj != nil` guard of the logging and return branches) and panics, modelled
as `none` — it does not return normally. -/
theorem missingErrorCheck_panics_on_reversed_nil_check :
    MissingErrorCheckRule.Check fileC5 = none := rfl

/-- Claim C6 (code bug): for an `http.Server` composite literal with no
`ReadTimeout`, `WriteTimeout` or `IdleTimeout` key, the rule reports no
missing-timeout issue at all — its only report on the scenario literal is
the missing-TLS issue — because the timeout branch is only reachable when
the key is present and then always finds the key again in the element
list. -/
theorem httpServer_absent_timeouts_unreported :
    InsecureHTTPRule.Check fileC6 =
      [httpIssue fileC6 4
        "HTTP-сервер не настроен для использования TLS (HTTPS), что небезопасно для производственной среды"] ∧
      eltsHaveKey serverEltsC6 "ReadTimeout" = false ∧
      eltsHaveKey serverEltsC6 "WriteTimeout" = false ∧
      eltsHaveKey serverEltsC6 "IdleTimeout" = false :=
  ⟨rfl, rfl, rfl, rfl⟩

/-- Claim C7: the scenario struct literal with fields
`Secret: "secretValue12345"` and `APIKey: "abcdef1234567890"` produces
exactly two hardcoded-secret issues; both values pass the
looks-like-a-secret predicate and neither quoted literal matches any of the
pattern-heuristic regexes. -/
theorem secrets_struct_scenario_two_issues :
    (HardcodedSecretsRule.Check fileC7).length = 2 ∧
      isLikelySecret "\x22secretValue12345\x22" = true ∧
      isLikelySecret "\x22abcdef1234567890\x22" = true ∧
      containsSecretPattern "\x22secretValue12345\x22" = false ∧
      containsSecretPattern "\x22abcdef1234567890\x22" = false :=
  ⟨rfl, rfl, rfl, rfl, rfl⟩

/-- Claim C8: the scenario file — `f, _ := os.Create("test.txt")` followed by
bare `f.Write(...)` and `f.Close()` statements — produces exactly the two
ignored-result issues for `Write` and `Close`, and no issue for the
`os.Create` assignment whose error is discarded with `_`. -/
theorem errorCheck_create_write_close_two_issues :
    MissingErrorCheckRule.Check fileC8 =
      some [errIssue fileC8 9 "Результат вызова критической функции Write игнорируется",
            errIssue fileC8 14 "Результат вызова критической функции Close игнорируется"] :=
  rfl

/-- Claim C9 (code bug): in a file importing `golang.org/x/crypto/bcrypt`,
`bcrypt.GenerateFromPassword(pwd, 7)` — cost 7, below the documented
minimum of 10 — yields no insecure-crypto issue, because the code only
matches the literal texts `"4"`, `"5"`, `"6"`; the cost-4 call does yield
exactly the one low-cost issue. -/
theorem bcrypt_cost_seven_unflagged_cost_four_flagged :
    InsecureCryptoRule.Check (bcryptFile "7") = [] ∧
      InsecureCryptoRule.Check (bcryptFile "4") =
        [cryptoIssue (bcryptFile "4") 3
          "Слишком низкое значение стоимости для bcrypt, используйте как минимум 10"] :=
  ⟨rfl, rfl⟩

/-- Claim C10: `Config.IsRuleEnabled` returns false whenever the rule id is
in `DisabledRules` (disabling wins over enabling); otherwise it returns true
when `EnabledRules` is empty, and with a non-empty `EnabledRules` it returns
true iff the id occurs there. -/
theorem isRuleEnabled_characterization (c : Config) (id : String) :
    c.IsRuleEnabled id = true ↔
      (id ∉ c.disabledRules ∧ (c.enabledRules = [] ∨ id ∈ c.enabledRules)) := by
  unfold Config.IsRuleEnabled
  split_ifs with h1 h2
  · simp_all [List.elem_iff]
  · simp_all [List.elem_iff, List.isEmpty_iff]
  · simp_all [List.elem_iff, List.isEmpty_iff]

end GoAudit
